import Mathlib

/-!
Verification of the NDGRClient comment-acquisition library.

Shallow embedding of `src/ndgr_client` (a Python client for the NDGR
live-comment message fabric).  Byte buffers are modelled as `List Nat`
(each entry one byte), protobuf messages as Lean structures with `Option`
fields standing for protobuf field presence (`HasField`), and fallible
Python code (`raise` / `assert`) as `Option` / `Except` results.
-/

namespace NDGR

/-! ## Framed-stream reader (`src/ndgr_client/protobuf_stream_reader.py`)

`ProtobufStreamReader` keeps a byte buffer (`bytearray`).  `addNewChunk`
appends bytes; `unshiftChunk` extracts the next varint-length-prefixed
frame, or returns `None` when the buffer holds only a partial frame.
-/

/-- Embedding of `ProtobufStreamReader.addNewChunk` (protobuf_stream_reader.py lines
21-29): `self.buffer.extend(chunk)`. -/
def addNewChunk (buffer chunk : List Nat) : List Nat :=
  buffer ++ chunk

/-- Loop of `ProtobufStreamReader.__readVarInt`
(protobuf_stream_reader.py lines 32-54).  State variables `offset`,
`result`, `i` are those of the Python `while True` loop.  The Python
code iterates a cursor `offset` over the fixed `self.buffer`; here the
same iteration is phrased structurally on the not-yet-read suffix
`bytes = buffer[offset:]`, with `offset` carried along as the count of
consumed bytes, so `current = buffer[offset]` is the head of `bytes`.
The function returns `none` when `offset >= len(self.buffer)` (data
shortage, i.e. the suffix is empty) and `some (offset, result)` once a
byte without the continuation bit 0x80 is consumed.  Python integers
are unbounded, hence plain `Nat`; no width limit is applied anywhere in
the loop. -/
def readVarIntAux : List Nat → Nat → Nat → Nat → Option (Nat × Nat)
  | [], _, _, _ => none
  | current :: rest, offset, result, i =>
    if current &&& 0x80 = 0 then
      some (offset + 1, result ||| ((current &&& 0x7F) <<< i))
    else
      readVarIntAux rest (offset + 1)
        (result ||| ((current &&& 0x7F) <<< i)) (i + 7)

/-- Entry point of `ProtobufStreamReader.__readVarInt`, entered with
`offset = 0`, `result = 0`, `i = 0`. -/
def readVarInt (buffer : List Nat) : Option (Nat × Nat) :=
  readVarIntAux buffer 0 0 0

/-- Embedding of `ProtobufStreamReader.unshiftChunk` (protobuf_stream_reader.py lines
57-77).  On success returns `(message, remaining buffer)` where
`message = buffer[offset : offset+varint]` and the remaining buffer is
`buffer` with `del buffer[:offset+varint]` applied; returns `none` when
the varint is incomplete or `offset + varint > len(buffer)`. -/
def unshiftChunk (buffer : List Nat) : Option (List Nat × List Nat) :=
  match readVarInt buffer with
  | none => none
  | some (offset, varint) =>
    if buffer.length < offset + varint then
      none
    else
      some ((buffer.drop offset).take varint, buffer.drop (offset + varint))

/-- Exhaustive extraction: the `while True: message = unshiftChunk(); if
message is None: break` drain loop of `NDGRClient.fetchProtobufStream`
(ndgr_client.py lines 977-985), run on a reader whose buffer is `buffer`.
Returns the extracted frames in order together with the leftover buffer.
`fuel` bounds the number of iterations; every successful `unshiftChunk`
consumes at least one byte, so `fuel = buffer.length` is always enough
(see `extractAllAux_fuel`). -/
def extractAllAux : Nat → List Nat → List (List Nat) × List Nat
  | 0, buffer => ([], buffer)
  | fuel + 1, buffer =>
    match unshiftChunk buffer with
    | none => ([], buffer)
    | some (message, rest) =>
      let r := extractAllAux fuel rest
      (message :: r.1, r.2)

/-- Exhaustive extraction from a buffer, with sufficient fuel. -/
def extractAll (buffer : List Nat) : List (List Nat) × List Nat :=
  extractAllAux buffer.length buffer

/-- One reader fed chunk by chunk, draining exhaustively after each
`addNewChunk` — exactly the `async for chunk ...: addNewChunk; while
True: unshiftChunk` structure of `fetchProtobufStream` (ndgr_client.py
lines 975-985).  Returns all frames extracted, in order, and the final
leftover buffer. -/
def processChunks : List (List Nat) → List Nat → List (List Nat) × List Nat
  | [], buffer => ([], buffer)
  | chunk :: rest, buffer =>
    let r := extractAll (addNewChunk buffer chunk)
    let r2 := processChunks rest r.2
    (r.1 ++ r2.1, r2.2)

/-! ## Protobuf data model

Wire shapes consumed by the client (`ChunkedEntry`, `ChunkedMessage` and
their submessages).  An `Option` field models protobuf submessage
presence (`HasField`); reading an absent submessage in Python protobuf
returns a default instance, modelled with `Option.getD {}`.  The
generated protobuf bindings (package `dwango.nicolive.chat`) are a
dependency, not part of `src/`; their field layout is modelled from the
spec (§6 "Protobuf shapes") and the enum spellings are chosen so that
the conversions in `src/ndgr_client` produce exactly the value sets
declared by `NDGRComment` in `src/ndgr_client/constants.py`. -/

/-- Protobuf timestamp `{seconds, nanos}`. -/
structure ProtoTimestamp where
  seconds : Int := 0
  nanos : Int := 0
deriving DecidableEq, Repr

/-- Submessage `meta.origin.chat` of a `ChunkedMessage` (spec §6:
`origin:{chat:{live_id}}`). -/
structure ProtoOriginChat where
  live_id : Int := 0
deriving DecidableEq, Repr

/-- Submessage `meta.origin` of a `ChunkedMessage`. -/
structure ProtoOrigin where
  chat : Option ProtoOriginChat := none
deriving DecidableEq, Repr

/-- Submessage `ChunkedMessage.meta` (spec §6: it carries id, at and origin). -/
structure ProtoMeta where
  id : String := ""
  «at» : Option ProtoTimestamp := none
  origin : Option ProtoOrigin := none
deriving DecidableEq, Repr

/-- The `Chat.Modifier.full_color` RGB triple. -/
structure ProtoFullColor where
  r : Int := 0
  g : Int := 0
  b : Int := 0
deriving DecidableEq, Repr

/-- Modelled from the spec: `atoms.Chat.Modifier.Pos` enum of the
generated protobuf bindings (not under `src/`); §3 gives the result set
{naka, shita, ue} after the code's `.lower()`. -/
inductive ProtoPos | naka | shita | ue
deriving DecidableEq, Repr

/-- Spelling returned by `Pos.Name(value)` of the Python protobuf enum. -/
def ProtoPos.pbName : ProtoPos → String
  | .naka => "naka"
  | .shita => "shita"
  | .ue => "ue"

/-- Modelled from the spec: `atoms.Chat.Modifier.Size` enum; §3 result
set {small, medium, big}. -/
inductive ProtoSize | medium | small | big
deriving DecidableEq, Repr

/-- Spelling returned by `Size.Name(value)` of the Python protobuf enum. -/
def ProtoSize.pbName : ProtoSize → String
  | .medium => "medium"
  | .small => "small"
  | .big => "big"

/-- Modelled from the spec: `atoms.Chat.Modifier.Font` enum; §3 result
set {defont, mincho, gothic}. -/
inductive ProtoFont | defont | mincho | gothic
deriving DecidableEq, Repr

/-- Spelling returned by `Font.Name(value)` of the Python protobuf enum. -/
def ProtoFont.pbName : ProtoFont → String
  | .defont => "defont"
  | .mincho => "mincho"
  | .gothic => "gothic"

/-- Modelled from the spec: `atoms.Chat.Modifier.Opacity` enum; the code
does not lower-case it, and §3 requires {Normal, Translucent}. -/
inductive ProtoOpacity | Normal | Translucent
deriving DecidableEq, Repr

/-- Spelling returned by `Opacity.Name(value)` of the Python protobuf enum. -/
def ProtoOpacity.pbName : ProtoOpacity → String
  | .Normal => "Normal"
  | .Translucent => "Translucent"

/-- Modelled from the spec: `atoms.Chat.AccountStatus` enum; the code
does not lower-case it, and §3 requires {Standard, Premium}. -/
inductive ProtoAccountStatus | Standard | Premium
deriving DecidableEq, Repr

/-- Spelling returned by `AccountStatus.Name(value)` of the Python protobuf enum. -/
def ProtoAccountStatus.pbName : ProtoAccountStatus → String
  | .Standard => "Standard"
  | .Premium => "Premium"

/-- Modelled from the spec: `atoms.Chat.Modifier.ColorName` enum; the
20-name palette is the `NDGRComment.color` literal set of
`src/ndgr_client/constants.py` lines 64-70. -/
inductive ProtoColorName
  | white | red | pink | orange | yellow | green | cyan | blue | purple | black
  | white2 | red2 | pink2 | orange2 | yellow2 | green2 | cyan2 | blue2
  | purple2 | black2
deriving DecidableEq, Repr

/-- Spelling returned by `ColorName.Name(value)` of the Python protobuf enum. -/
def ProtoColorName.pbName : ProtoColorName → String
  | .white => "white" | .red => "red" | .pink => "pink" | .orange => "orange"
  | .yellow => "yellow" | .green => "green" | .cyan => "cyan" | .blue => "blue"
  | .purple => "purple" | .black => "black"
  | .white2 => "white2" | .red2 => "red2" | .pink2 => "pink2"
  | .orange2 => "orange2" | .yellow2 => "yellow2" | .green2 => "green2"
  | .cyan2 => "cyan2" | .blue2 => "blue2" | .purple2 => "purple2"
  | .black2 => "black2"

/-- Submessage `Chat.Modifier` (spec §6): rendering attributes of a comment.
`full_color` and `named_color` support `HasField`, hence `Option`. -/
structure ProtoModifier where
  position : ProtoPos := .naka
  size : ProtoSize := .medium
  font : ProtoFont := .defont
  opacity : ProtoOpacity := .Normal
  full_color : Option ProtoFullColor := none
  named_color : Option ProtoColorName := none
deriving DecidableEq, Repr

/-- The `Chat` payload (spec §6): the user comment itself. -/
structure ProtoChat where
  raw_user_id : Int := 0
  hashed_user_id : String := ""
  account_status : ProtoAccountStatus := .Standard
  no : Int := 0
  vpos : Int := 0
  content : String := ""
  modifier : Option ProtoModifier := none
deriving DecidableEq, Repr

/-- Submessage `ChunkedMessage.message` (`NicoLiveMessage`): carries `chat` or
`overflowed_chat` for user comments. -/
structure ProtoNicoLiveMessage where
  chat : Option ProtoChat := none
  overflowed_chat : Option ProtoChat := none
deriving DecidableEq, Repr

/-- Wire record `ChunkedMessage` (spec §6). -/
structure ChunkedMessage where
  meta : Option ProtoMeta := none
  message : Option ProtoNicoLiveMessage := none
deriving DecidableEq, Repr

/-- Wire record `ChunkedEntry` (spec §6): tagged union dispatched by the View-stream
drivers via `HasField` checks on the oneof. -/
inductive ChunkedEntry
  | segment (uri : String) (fromTs untilTs : ProtoTimestamp)
  | next (ts : Int)
  | backward (uri : String)
  | other
deriving DecidableEq, Repr

/-! ## Normalized comment model (`src/ndgr_client/constants.py`) -/

/-- Color field `NDGRComment.color`: either a palette name (`str` literal) or an
`NDGRCommentFullColor` RGB triple (constants.py lines 64-70, 87-90). -/
inductive NDGRColorValue
  | named (s : String)
  | full (r g b : Int)
deriving DecidableEq, Repr

/-- Normalized comment `NDGRComment` (constants.py lines 35-84).  Its `at` is a
`datetime.fromtimestamp(seconds + nanos/1e9)`; the underlying point in
time is modelled exactly as the rational `seconds + nanos/1e9` (Python
rounds it to binary floating point, a monotone rounding, so all `≤`
comparisons made by the client agree with this exact model).  The
enumerated string fields carry the strings the conversion produces. -/
structure NDGRComment where
  id : String
  «at» : ℚ
  live_id : Int
  raw_user_id : Int
  hashed_user_id : String
  account_status : String
  no : Int
  vpos : Int
  position : String
  size : String
  color : NDGRColorValue
  font : String
  opacity : String
  content : String
deriving DecidableEq, Repr

/-- Python `str.lower()` restricted to the ASCII enum-name strings it
is applied to, character by character (`String.toLower` itself is not
kernel-reducible). -/
def pyLower (s : String) : String :=
  String.mk (s.data.map Char.toLower)

/-- The instant `seconds + nanos/1e9` of a protobuf timestamp, as in
`chunked_message.meta.at.seconds + (chunked_message.meta.at.nanos / 1e9)`
(ndgr_client.py line 1067). -/
def tsToRat (t : ProtoTimestamp) : ℚ :=
  (t.seconds : ℚ) + (t.nanos : ℚ) / 1000000000

/-- Program descriptor `NicoLiveProgramInfo` (constants.py lines 8-32). -/
structure NicoLiveProgramInfo where
  nicoliveProgramId : String
  title : String
  description : String
  status : String
  openTime : Int
  beginTime : Int
  vposBaseTime : Int
  endTime : Int
  scheduledEndTime : Int
  webSocketUrl : String
deriving DecidableEq, Repr

/-! ## Comment normalization (`NDGRClient.convertToNDGRComment`) -/

/-- Embedding of `NDGRClient.convertToNDGRComment` (ndgr_client.py lines 1030-1082).
The two `assert` statements (message present; chat or overflowed_chat
present) and the modifier `assert` are modelled as `none`
(`AssertionError`).  `meta` is read without a presence check, so absent
`meta`/`at`/`origin` submessages contribute protobuf defaults
(`Option.getD {}`).  Color precedence (lines 1053-1063): `full_color`
wins, else `named_color`, else `"white"`. -/
def convertToNDGRComment (m : ChunkedMessage) : Option NDGRComment :=
  match m.message with
  | none => none
  | some msg =>
    match (match msg.chat with | some c => some c | none => msg.overflowed_chat) with
    | none => none
    | some message_chat =>
      match message_chat.modifier with
      | none => none
      | some modifier =>
        let color : NDGRColorValue :=
          match modifier.full_color with
          | some fc => .full fc.r fc.g fc.b
          | none =>
            match modifier.named_color with
            | some nc => .named (pyLower nc.pbName)
            | none => .named "white"
        some {
          id := (m.meta.getD {}).id
          «at» := tsToRat ((m.meta.getD {}).«at».getD {})
          live_id := (((m.meta.getD {}).origin.getD {}).chat.getD {}).live_id
          raw_user_id := message_chat.raw_user_id
          hashed_user_id := message_chat.hashed_user_id
          account_status := message_chat.account_status.pbName
          no := message_chat.no
          vpos := message_chat.vpos
          position := pyLower modifier.position.pbName
          size := pyLower modifier.size.pbName
          color := color
          font := pyLower modifier.font.pbName
          opacity := modifier.opacity.pbName
          content := message_chat.content }

/-- The at-instant of a `ChunkedMessage` as read by the conversion. -/
def cmAt (m : ChunkedMessage) : ℚ :=
  tsToRat ((m.meta.getD {}).«at».getD {})

/-- Admissibility filter + conversion applied per received
`ChunkedMessage`, shared verbatim by `NDGRClient.fetchChunkedMessages`
(ndgr_client.py lines 914-929) and the `PackedSegment` loop of
`NDGRClient.downloadBackwardComments` (lines 652-671): skip when `meta`
or `message` is absent, skip when neither `chat` nor `overflowed_chat`
is present, pick `chat` else `overflowed_chat`, skip when it has no
`modifier`; otherwise convert. -/
def admitChunkedMessage (m : ChunkedMessage) : Option NDGRComment :=
  match m.meta, m.message with
  | some _, some msg =>
    if msg.chat.isSome || msg.overflowed_chat.isSome then
      match (match msg.chat with | some c => some c | none => msg.overflowed_chat) with
      | some message_chat =>
        if message_chat.modifier.isSome then convertToNDGRComment m else none
      | none => none
    else none
  | _, _ => none

/-- Embedding of `NDGRClient.fetchChunkedMessages` (ndgr_client.py lines 902-929)
applied to the sequence of `ChunkedMessage`s decoded from one segment
stream: the comments it yields, in order. -/
def fetchChunkedMessages (msgs : List ChunkedMessage) : List NDGRComment :=
  msgs.filterMap admitChunkedMessage

/-! ## Backward walker (`NDGRClient.downloadBackwardComments`) -/

/-- The accumulation loop of `NDGRClient.downloadBackwardComments`
(ndgr_client.py lines 640-692) over the successive `PackedSegment`
bodies it fetches (each given as its `messages` list, in fetch order):
per segment, build `temp_comments` with the admissibility filter and
conversion, then prepend — `comments = temp_comments + comments`
(line 676). -/
def downloadBackwardComments (segments : List (List ChunkedMessage)) :
    List NDGRComment :=
  segments.foldl
    (fun comments packed => packed.filterMap admitChunkedMessage ++ comments) []

/-! ## View stream entry loops -/

/-- Entry classification loop of `fetch_chunked_entries` inside
`NDGRClient.streamComments` (ndgr_client.py lines 414-443), for one
slice.  State: `ready_for_next` (reset to `None` at line 408 before the
slice) and the keys of `active_segments`.  A `segment` entry starts a
worker task only if its URI is not already active (lines 434-439); a
`next` entry stores the continuation — with no duplicate check, a second
`next` silently overwrites (lines 442-443); everything else is
ignored. -/
def fetchChunkedEntriesSlice :
    List ChunkedEntry → Option Int → List String → Option Int × List String
  | [], ready_for_next, active => (ready_for_next, active)
  | .segment uri _ _ :: rest, ready_for_next, active =>
    if uri ∈ active then
      fetchChunkedEntriesSlice rest ready_for_next active
    else
      fetchChunkedEntriesSlice rest ready_for_next (active ++ [uri])
  | .next ts :: rest, _, active =>
    fetchChunkedEntriesSlice rest (some ts) active
  | .backward _ :: rest, ready_for_next, active =>
    fetchChunkedEntriesSlice rest ready_for_next active
  | .other :: rest, ready_for_next, active =>
    fetchChunkedEntriesSlice rest ready_for_next active

/-- Embedding of `process_chunked_entries` inside `NDGRClient.downloadBackwardComments`
(ndgr_client.py lines 588-609), for one slice.  A `next` entry asserts
`ready_for_next is None` — a duplicate is an `AssertionError`
`Duplicated ReadyForNext` (lines 599-601) — and a `backward` entry
returns its URI immediately (lines 604-607); other entries are
ignored.  Result: `(backward URI if found, final ready_for_next)`. -/
def processChunkedEntries :
    List ChunkedEntry → Option Int → Except String (Option String × Option Int)
  | [], ready_for_next => .ok (none, ready_for_next)
  | .next ts :: rest, ready_for_next =>
    if ready_for_next.isSome then .error "Duplicated ReadyForNext"
    else processChunkedEntries rest (some ts)
  | .backward uri :: _, ready_for_next => .ok (some uri, ready_for_next)
  | .segment _ _ _ :: rest, ready_for_next =>
    processChunkedEntries rest ready_for_next
  | .other :: rest, ready_for_next =>
    processChunkedEntries rest ready_for_next

/-! ## Protobuf fetcher (`NDGRClient.fetchProtobufStream`) -/

/-- One HTTP attempt of `NDGRClient.fetchProtobufStream` observed from
outside: the byte chunks received before the attempt ended, and whether
the body ended normally (`true`) or a transport error was raised
(`false`). -/
def FetcherAttempt := List (List Nat) × Bool

/-- The frames yielded by `NDGRClient.fetchProtobufStream`
(ndgr_client.py lines 933-1005) across its retry loop, given the trace
of HTTP attempts against the URI.  Each attempt creates a fresh
`ProtobufStreamReader` (line 961) and yields every frame decoded from
the chunks it receives (lines 975-985) — frames already yielded are not
tracked.  A normal end stops the loop (line 991); a transport error
moves to the next attempt, up to `max_retries = 5` (lines 956, 959,
994-1005). -/
def fetchProtobufStreamFrames : List FetcherAttempt → Nat → List (List Nat)
  | [], _ => []
  | _, 0 => []
  | (chunks, ok) :: rest, n + 1 =>
    (processChunks chunks []).1 ++
      (if ok then [] else fetchProtobufStreamFrames rest n)

/-- Embedding of `fetchProtobufStream` with the source's `max_retries = 5`. -/
def fetchProtobufStreamEmitted (attempts : List FetcherAttempt) :
    List (List Nat) :=
  fetchProtobufStreamFrames attempts 5

/-! ## Live supervisor prologue (`stream_comments_inner`) -/

/-- Embedding of `stream_comments_inner` inside `NDGRClient.streamComments`
(ndgr_client.py lines 317-525), sequentialized: it first fetches the
program info and refuses with `ValueError` when `status == 'ENDED'`
(lines 324-328) before constructing any stream; otherwise the view
entries start one worker per new segment URI
(`fetchChunkedEntriesSlice`) and each worker yields the comments of its
segment stream (`fetchChunkedMessages`) into the shared queue.  The
output lists the workers' comments in worker start order — one
admissible schedule of the concurrent system (per-worker order is
preserved; cross-worker interleaving is abstracted). -/
def streamCommentsInner (info : NicoLiveProgramInfo)
    (entries : List ChunkedEntry) (segStream : String → List ChunkedMessage) :
    Except String (List NDGRComment) :=
  if info.status = "ENDED" then
    .error ("Program " ++ info.nicoliveProgramId ++
      " has already ended and cannot be streamed.")
  else
    .ok (((fetchChunkedEntriesSlice entries none []).2.map
      (fun uri => fetchChunkedMessages (segStream uri))).flatten)

/-! ## Legacy XML writer (`convertToXMLCompatibleComment`,
`convertToXMLString`) -/

/-- Structure `XMLCompatibleComment` (constants.py lines 93-117).  Its `premium` and
`anonymity` are `Literal[1] | None`, modelled as `Option Int`. -/
structure XMLCompatibleComment where
  thread : String
  no : Int
  vpos : Int
  date : Int
  date_usec : Int
  user_id : String
  mail : String
  premium : Option Int := none
  anonymity : Option Int := none
  content : String
deriving DecidableEq, Repr

/-- Python `int()` truncation toward zero applied to a rational (the
model of `int(comment.«at».timestamp())`, ndgr_client.py line 1130). -/
def pyInt (q : ℚ) : Int :=
  q.num.tdiv (q.den : Int)

/-- Python `x % 1` for a float: the fractional part in `[0, 1)`. -/
def pyFrac (q : ℚ) : ℚ :=
  q - (⌊q⌋ : ℚ)

/-- Lowercase hex digits of a natural number, two-digit zero-padded —
the model of the f-string `{value:02x}` (ndgr_client.py line 1109),
restricted to the non-negative values protobuf color components take. -/
def hex2 (n : Int) : String :=
  let s := String.mk (Nat.toDigits 16 n.toNat)
  if s.length < 2 then "0" ++ s else s

/-- Embedding of `NDGRClient.convertToXMLCompatibleComment` (ndgr_client.py lines
1085-1140): command-token list, user id selection, timestamp split into
`date`/`date_usec`, and the `premium`/`anonymity` markers. -/
def convertToXMLCompatibleComment (comment : NDGRComment) :
    XMLCompatibleComment :=
  let command : List String :=
    (if comment.raw_user_id = 0 then ["184"] else []) ++
    (if comment.position ≠ "naka" then [comment.position] else []) ++
    (if comment.size ≠ "medium" then [comment.size] else []) ++
    (match comment.color with
      | .named s => if s ≠ "white" then [s] else []
      | .full r g b => ["#" ++ hex2 r ++ hex2 g ++ hex2 b]) ++
    (if comment.font ≠ "defont" then [comment.font] else []) ++
    (if comment.opacity = "Translucent" then ["translucent"] else [])
  let user_id : String :=
    if comment.raw_user_id > 0 then toString comment.raw_user_id
    else comment.hashed_user_id
  { thread := "lv" ++ toString comment.live_id
    no := comment.no
    vpos := comment.vpos
    date := pyInt comment.«at»
    date_usec := pyInt (pyFrac comment.«at» * 1000000)
    user_id := user_id
    mail := String.intercalate " " command
    premium := if comment.account_status = "Premium" then some 1 else none
    anonymity := if comment.raw_user_id = 0 then some 1 else none
    content := comment.content }

/-- Embedding of `sanitize_for_xml` (ndgr_client.py lines 1155-1158): strip exactly
U+0000–U+0008, U+000B, U+000C, U+000E–U+001F and U+007F, keeping tab,
LF and CR. -/
def sanitize_for_xml (text : String) : String :=
  String.mk (text.data.filter (fun ch =>
    !(ch.toNat ≤ 0x08 || ch.toNat = 0x0B || ch.toNat = 0x0C ||
      (0x0E ≤ ch.toNat && ch.toNat ≤ 0x1F) || ch.toNat = 0x7F)))

/-- One serialized `<chat>` element: its attribute list (in insertion
order, as preserved by lxml) and its text content. -/
structure ChatElem where
  attrs : List (String × String)
  text : String
deriving DecidableEq, Repr

/-- The attribute lookup `x.date_with_usec` performed by the sort key of
`NDGRClient.convertToXMLString` (ndgr_client.py line 1168).
`XMLCompatibleComment` (constants.py lines 93-117) declares only the
fields `thread`, `no`, `vpos`, `date`, `date_usec`, `user_id`, `mail`,
`premium`, `anonymity`, `content` — no field, property or method named
`date_with_usec` — so on a pydantic model the lookup raises
`AttributeError`; it is modelled as an `Option`-valued access that never
succeeds. -/
def dateWithUsecAttr (_ : XMLCompatibleComment) : Option ℚ := none

/-- Stable insertion into a sorted list: the new element goes before
the first strictly-greater element, so elements comparing equal keep
their original relative order (as Python's stable sort guarantees). -/
def pyInsertSorted {α : Type} (le : α → α → Bool) (x : α) :
    List α → List α
  | [] => [x]
  | y :: ys =>
    if le y x && !(le x y) then y :: pyInsertSorted le x ys else x :: y :: ys

/-- Stable sort (insertion sort) modelling Python's stable
`list.sort`. -/
def pySort {α : Type} (le : α → α → Bool) : List α → List α
  | [] => []
  | x :: xs => pyInsertSorted le x (pySort le xs)

/-- Python `list.sort(key=...)` where evaluating the key may raise:
CPython calls the key function once per element before sorting, so any
element whose key raises aborts the sort; the sort is stable. -/
def pySortByKey (key : XMLCompatibleComment → Option ℚ)
    (xs : List XMLCompatibleComment) : Except String (List XMLCompatibleComment) :=
  if xs.all (fun x => (key x).isSome) then
    .ok (pySort (fun a b => decide (((key a).getD 0) ≤ ((key b).getD 0))) xs)
  else
    .error "AttributeError: date_with_usec"

/-- Loop body of `NDGRClient.convertToXMLString` (ndgr_client.py lines
1171-1194): dump the comment to a dict in field order, detach `content`,
add `nx_jikkyo="1"` when the user id has at least 35 characters (lines
1184-1185), drop `None` values, sanitize, and build the `<chat>`
element. -/
def chatElemOf (x : XMLCompatibleComment) : ChatElem :=
  let base : List (String × Option String) :=
    [("thread", some x.thread), ("no", some (toString x.no)),
      ("vpos", some (toString x.vpos)), ("date", some (toString x.date)),
      ("date_usec", some (toString x.date_usec)),
      ("user_id", some x.user_id), ("mail", some x.mail),
      ("premium", x.premium.map toString),
      ("anonymity", x.anonymity.map toString)] ++
    (if 35 ≤ x.user_id.length then [("nx_jikkyo", some "1")] else [])
  { attrs := base.filterMap (fun kv => kv.2.map (fun v => (kv.1, sanitize_for_xml v)))
    text := sanitize_for_xml x.content }

/-- Input of `convertToXMLString`: `Sequence[NDGRComment |
XMLCompatibleComment]`. -/
def XMLInputComment := NDGRComment ⊕ XMLCompatibleComment

/-- Embedding of `NDGRClient.convertToXMLString` (ndgr_client.py lines 1143-1201):
normalize every input to `XMLCompatibleComment` (lines 1164-1167), sort
by the `date_with_usec` key (line 1168), then emit one `<chat>` element
per comment; the surrounding `<packet>` wrapper is removed from the
output (lines 1199-1201), so the result is just the element list (final
string rendering of the elements is not modelled).  The `Except` error
carries the exception the sort raises. -/
def convertToXMLString (comments : List XMLInputComment) :
    Except String (List ChatElem) :=
  let xml_compatible_comments := comments.map (fun c =>
    match c with
    | .inl ndgr => convertToXMLCompatibleComment ndgr
    | .inr xml => xml)
  match pySortByKey dateWithUsecAttr xml_compatible_comments with
  | .error e => .error e
  | .ok sorted => .ok (sorted.map chatElemOf)

/-- A fully-populated admissible `ChunkedMessage` at a given instant,
used as witness data. -/
def mkMessage (ident : String) (secs : Int) : ChunkedMessage :=
  { meta := some { id := ident
                   «at» := some { seconds := secs, nanos := 0 }
                   origin := some { chat := some { live_id := 345479473 } } }
    message := some { chat := some { modifier := some {} } } }

/-- The comment `convertToNDGRComment` produces from
`mkMessage ident secs`: all chat fields at their protobuf defaults. -/
def mkComment (ident : String) (secs : Int) : NDGRComment :=
  { id := ident
    «at» := tsToRat { seconds := secs, nanos := 0 }
    live_id := 345479473
    raw_user_id := 0
    hashed_user_id := ""
    account_status := "Standard"
    no := 0
    vpos := 0
    position := "naka"
    size := "medium"
    color := .named "white"
    font := "defont"
    opacity := "Normal"
    content := "" }

/-- Witness data: a program descriptor whose status is already ENDED. -/
def infoEnded : NicoLiveProgramInfo :=
  { nicoliveProgramId := "lv345479473"
    title := "title"
    description := ""
    status := "ENDED"
    openTime := 1722840000
    beginTime := 1722840000
    vposBaseTime := 1722840000
    endTime := 1722843600
    scheduledEndTime := 1722843600
    webSocketUrl := "" }

/-- Witness data: an XML-compatible comment with a short (niconico-form)
user id. -/
def xcShort : XMLCompatibleComment :=
  { thread := "lv345479473"
    no := 1
    vpos := 100
    date := 1722840000
    date_usec := 0
    user_id := "100"
    mail := ""
    content := "test" }

/-- Witness data: an XML-compatible comment whose user id is a 40-char
SHA-1 hex digest, as NX-Jikkyo generates. -/
def xcLong : XMLCompatibleComment :=
  { thread := "lv345479473"
    no := 2
    vpos := 200
    date := 1722840001
    date_usec := 0
    user_id := "da39a3ee5e6b4b0d3255bfef95601890afd80709"
    mail := ""
    content := "test2" }

/-! ### Reader lemmas -/

/-- A successful varint decode advances the offset and stays inside the
buffer. -/
theorem readVarIntAux_spec {bytes : List Nat} {offset result i o v : Nat}
    (h : readVarIntAux bytes offset result i = some (o, v)) :
    offset < o ∧ o ≤ offset + bytes.length := by
  induction bytes generalizing offset result i with
  | nil => simp [readVarIntAux] at h
  | cons current rest ih =>
    rw [readVarIntAux] at h
    by_cases hstop : current &&& 0x80 = 0
    · rw [if_pos hstop] at h
      simp only [Option.some.injEq, Prod.mk.injEq] at h
      simp only [List.length_cons]
      omega
    · rw [if_neg hstop] at h
      have := ih h
      simp only [List.length_cons]
      omega

/-- Decoding a varint only inspects bytes of the current buffer: if it
succeeds on `bytes`, it returns the same result on `bytes ++ c`. -/
theorem readVarIntAux_append {bytes : List Nat} (c : List Nat)
    {offset result i o v : Nat}
    (h : readVarIntAux bytes offset result i = some (o, v)) :
    readVarIntAux (bytes ++ c) offset result i = some (o, v) := by
  induction bytes generalizing offset result i with
  | nil => simp [readVarIntAux] at h
  | cons current rest ih =>
    rw [readVarIntAux] at h
    rw [List.cons_append, readVarIntAux]
    by_cases hstop : current &&& 0x80 = 0
    · rw [if_pos hstop] at h ⊢
      exact h
    · rw [if_neg hstop] at h ⊢
      exact ih h

/-- A successful extraction consumes at least one byte and returns the
declared slice/remainder of the buffer. -/
theorem unshiftChunk_some {buffer m r : List Nat}
    (h : unshiftChunk buffer = some (m, r)) :
    ∃ o v, readVarInt buffer = some (o, v) ∧ 1 ≤ o ∧ o + v ≤ buffer.length ∧
      m = (buffer.drop o).take v ∧ r = buffer.drop (o + v) := by
  unfold unshiftChunk at h
  split at h
  · exact absurd h (by simp)
  · next o v hv =>
    split at h
    · exact absurd h (by simp)
    · next hlen =>
      simp only [Option.some.injEq, Prod.mk.injEq] at h
      have hspec := readVarIntAux_spec hv
      exact ⟨o, v, hv, by omega, by omega, h.1.symm, h.2.symm⟩

/-- A successful extraction leaves a strictly shorter buffer. -/
theorem unshiftChunk_length {buffer m r : List Nat}
    (h : unshiftChunk buffer = some (m, r)) : r.length < buffer.length := by
  obtain ⟨o, v, _, ho, hle, _, hr⟩ := unshiftChunk_some h
  subst hr
  simp only [List.length_drop]
  omega

/-- Appending bytes does not disturb a frame that is already complete:
`unshiftChunk` returns the same frame, with the new bytes joining the
remainder. -/
theorem unshiftChunk_append {buffer m r : List Nat} (c : List Nat)
    (h : unshiftChunk buffer = some (m, r)) :
    unshiftChunk (buffer ++ c) = some (m, r ++ c) := by
  obtain ⟨o, v, hv, ho, hle, hm, hr⟩ := unshiftChunk_some h
  have hv2 : readVarInt (buffer ++ c) = some (o, v) := readVarIntAux_append c hv
  have hlen : ¬ (buffer ++ c).length < o + v := by
    simp only [List.length_append]; omega
  have hdrop : (buffer ++ c).drop o = buffer.drop o ++ c :=
    List.drop_append_of_le_length (by omega)
  have htake : ((buffer ++ c).drop o).take v = m := by
    rw [hdrop, List.take_append_of_le_length (by simp; omega), hm]
  have hdrop2 : (buffer ++ c).drop (o + v) = r ++ c := by
    rw [List.drop_append_of_le_length hle, hr]
  unfold unshiftChunk
  rw [hv2]
  simp only [if_neg hlen, htake, hdrop2]

/-- An empty buffer yields nothing. -/
theorem unshiftChunk_nil : unshiftChunk [] = none := rfl

/-- Fuel above the buffer length is irrelevant to exhaustive
extraction. -/
theorem extractAllAux_fuel :
    ∀ (f f' : Nat) (buffer : List Nat), buffer.length ≤ f →
      buffer.length ≤ f' → extractAllAux f buffer = extractAllAux f' buffer := by
  intro f
  induction f with
  | zero =>
    intro f' buffer hf hf'
    have : buffer = [] := List.eq_nil_of_length_eq_zero (by omega)
    subst this
    cases f' with
    | zero => rfl
    | succ k => simp [extractAllAux, unshiftChunk_nil]
  | succ k ih =>
    intro f' buffer hf hf'
    cases f' with
    | zero =>
      have : buffer = [] := List.eq_nil_of_length_eq_zero (by omega)
      subst this
      simp [extractAllAux, unshiftChunk_nil]
    | succ k' =>
      simp only [extractAllAux]
      cases hu : unshiftChunk buffer with
      | none => rfl
      | some mr =>
        obtain ⟨m, r⟩ := mr
        have hlen := unshiftChunk_length hu
        simp only [ih k' r (by omega) (by omega)]

/-- Unfolding: a stuck buffer extracts nothing. -/
theorem extractAll_none {buffer : List Nat} (h : unshiftChunk buffer = none) :
    extractAll buffer = ([], buffer) := by
  unfold extractAll
  cases hl : buffer.length with
  | zero => rfl
  | succ k => simp [extractAllAux, h]

/-- Unfolding: a buffer holding a complete frame extracts it first. -/
theorem extractAll_some {buffer m r : List Nat}
    (h : unshiftChunk buffer = some (m, r)) :
    extractAll buffer = (m :: (extractAll r).1, (extractAll r).2) := by
  unfold extractAll
  have hlen := unshiftChunk_length h
  cases hl : buffer.length with
  | zero =>
    have : buffer = [] := List.eq_nil_of_length_eq_zero hl
    subst this
    rw [unshiftChunk_nil] at h
    exact absurd h (by simp)
  | succ k =>
    simp only [extractAllAux, h]
    rw [extractAllAux_fuel k r.length r (by omega) (by omega)]

/-- Key compositionality fact behind partition invariance: extracting
from `b ++ c` first yields everything extractable from `b`, then
proceeds on the leftover of `b` followed by `c`. -/
theorem extractAll_append (b c : List Nat) :
    extractAll (b ++ c) =
      ((extractAll b).1 ++ (extractAll ((extractAll b).2 ++ c)).1,
        (extractAll ((extractAll b).2 ++ c)).2) := by
  cases hu : unshiftChunk b with
  | none =>
    rw [extractAll_none hu]
    simp
  | some mr =>
    obtain ⟨m, r⟩ := mr
    have hlen := unshiftChunk_length hu
    rw [extractAll_some (unshiftChunk_append c hu), extractAll_some hu,
      extractAll_append r c]
    simp
termination_by b.length

/-- Extraction from the empty buffer. -/
theorem extractAll_nil : extractAll [] = ([], []) := rfl

/-- Feeding chunks one by one (draining after each) continues exactly
where extraction of the prefix `b` left off. -/
theorem processChunks_spec (chunks : List (List Nat)) (b : List Nat) :
    extractAll (b ++ chunks.flatten) =
      ((extractAll b).1 ++ (processChunks chunks (extractAll b).2).1,
        (processChunks chunks (extractAll b).2).2) := by
  induction chunks generalizing b with
  | nil => simp [processChunks]
  | cons ch rest ih =>
    have h1 : b ++ (ch :: rest).flatten = (b ++ ch) ++ rest.flatten := by
      simp [List.append_assoc]
    rw [h1, ih (b ++ ch), extractAll_append b ch]
    simp [processChunks, addNewChunk, List.append_assoc]

end NDGR

namespace NDGR

/-! ### Conversion and backward-walk lemmas -/

/-- The conversion copies the meta at-instant into the comment. -/
theorem convertToNDGRComment_at {m : ChunkedMessage} {c : NDGRComment}
    (h : convertToNDGRComment m = some c) : c.«at» = cmAt m := by
  unfold convertToNDGRComment at h
  split at h
  · exact absurd h (by simp)
  · split at h
    · exact absurd h (by simp)
    · split at h
      · exact absurd h (by simp)
      · simp only [Option.some.injEq] at h
        subst h
        rfl

/-- The admissibility filter only passes converted messages, so it also
preserves the at-instant. -/
theorem admitChunkedMessage_at {m : ChunkedMessage} {c : NDGRComment}
    (h : admitChunkedMessage m = some c) : c.«at» = cmAt m := by
  unfold admitChunkedMessage at h
  split at h
  · split at h
    · split at h
      · split at h
        · exact convertToNDGRComment_at h
        · exact absurd h (by simp)
      · exact absurd h (by simp)
    · exact absurd h (by simp)
  · exact absurd h (by simp)

/-- Unrolling of a prepend-accumulating fold into a flatten of the
reversed batches. -/
theorem foldl_prepend {α β : Type} (f : α → List β) :
    ∀ (l : List α) (init : List β),
      l.foldl (fun acc s => f s ++ acc) init
        = ((l.map f).reverse).flatten ++ init := by
  intro l
  induction l with
  | nil => intro init; simp
  | cons s rest ih =>
    intro init
    simp only [List.foldl_cons, List.map_cons, List.reverse_cons,
      List.flatten_append, ih (f s ++ init)]
    simp [List.append_assoc]

/-- Unfolding lemma: `downloadBackwardComments` is the concatenation of the per-segment
batches in reverse fetch order. -/
theorem downloadBackwardComments_eq (segments : List (List ChunkedMessage)) :
    downloadBackwardComments segments =
      ((segments.map (fun s => s.filterMap admitChunkedMessage)).reverse).flatten := by
  unfold downloadBackwardComments
  rw [foldl_prepend]
  simp

/-! ## Claim C1 — framing partition invariance -/

/-- C1: for every byte stream `S` and every partition of `S` into
chunks, feeding the chunks in order to `addNewChunk` with exhaustive
`unshiftChunk` extraction interleaved after every append yields exactly
the frames (and leftover buffer) of appending all of `S` at once and
extracting exhaustively.  Coarser interleavings (several appends
between drains) are partitions with the corresponding chunks joined, so
they are instances of the same statement. -/
theorem C1_partition_invariance (chunks : List (List Nat)) (S : List Nat)
    (h : chunks.flatten = S) :
    processChunks chunks [] = extractAll S := by
  subst h
  have hmain := processChunks_spec chunks []
  rw [List.nil_append] at hmain
  simp [extractAll_nil] at hmain
  exact hmain.symm

/-- Witness for C1 at the spec's Scenario 1 partition. -/
theorem C1_witness :
    ([[0x05, 104, 101, 108], [108, 111, 0x03, 65, 66, 67]] : List (List Nat)).flatten
        = [0x05, 104, 101, 108, 108, 111, 0x03, 65, 66, 67] ∧
      processChunks [[0x05, 104, 101, 108], [108, 111, 0x03, 65, 66, 67]] []
        = extractAll [0x05, 104, 101, 108, 108, 111, 0x03, 65, 66, 67] :=
  ⟨by decide, C1_partition_invariance _ _ (by decide)⟩

/-! ## Claim C2 — backward download is chronologically sorted -/

/-- C2: assuming each fetched `PackedSegment`'s messages are ascending
by at-timestamp, and each later-fetched segment covers an earlier time
range, every consecutive pair of the returned comments satisfies
`C_i.at ≤ C_{i+1}.at`; and each new batch is prepended to the
accumulator. -/
theorem C2_backward_sorted (segments : List (List ChunkedMessage))
    (hseg : ∀ s ∈ segments, s.Pairwise (fun m1 m2 => cmAt m1 ≤ cmAt m2))
    (hchain : segments.Pairwise
      (fun s t => ∀ m1 ∈ t, ∀ m2 ∈ s, cmAt m1 ≤ cmAt m2)) :
    List.Chain' (fun c1 c2 => c1.«at» ≤ c2.«at»)
        (downloadBackwardComments segments) ∧
      ∀ packed, downloadBackwardComments (segments ++ [packed]) =
        packed.filterMap admitChunkedMessage ++ downloadBackwardComments segments := by
  constructor
  · apply List.Pairwise.chain'
    rw [downloadBackwardComments_eq, List.pairwise_flatten]
    constructor
    · intro l hl
      rw [List.mem_reverse, List.mem_map] at hl
      obtain ⟨s, hs, rfl⟩ := hl
      refine (hseg s hs).filterMap admitChunkedMessage ?_
      intro m1 m2 hle c1 hc1 c2 hc2
      rw [Option.mem_def] at hc1 hc2
      rw [admitChunkedMessage_at hc1, admitChunkedMessage_at hc2]
      exact hle
    · rw [List.pairwise_reverse, List.pairwise_map]
      refine hchain.imp ?_
      intro s t hst c1 hc1 c2 hc2
      rw [List.mem_filterMap] at hc1 hc2
      obtain ⟨m1, hm1, ham1⟩ := hc1
      obtain ⟨m2, hm2, ham2⟩ := hc2
      rw [admitChunkedMessage_at ham1, admitChunkedMessage_at ham2]
      exact hst m1 hm1 m2 hm2
  · intro packed
    unfold downloadBackwardComments
    rw [List.foldl_append]
    rfl

/-- Witness for C2: two packed segments fetched newest-first
(timestamps 100,101 then 90), satisfying both sortedness
hypotheses. -/
theorem C2_witness :
    (∀ s ∈ [[mkMessage "a" 100, mkMessage "b" 101], [mkMessage "c" 90]],
      s.Pairwise (fun m1 m2 => cmAt m1 ≤ cmAt m2)) ∧
    ([[mkMessage "a" 100, mkMessage "b" 101], [mkMessage "c" 90]].Pairwise
      (fun s t => ∀ m1 ∈ t, ∀ m2 ∈ s, cmAt m1 ≤ cmAt m2)) ∧
    (List.Chain' (fun c1 c2 => c1.«at» ≤ c2.«at»)
        (downloadBackwardComments
          [[mkMessage "a" 100, mkMessage "b" 101], [mkMessage "c" 90]]) ∧
      ∀ packed, downloadBackwardComments
          ([[mkMessage "a" 100, mkMessage "b" 101], [mkMessage "c" 90]] ++ [packed]) =
        packed.filterMap admitChunkedMessage ++
          downloadBackwardComments
            [[mkMessage "a" 100, mkMessage "b" 101], [mkMessage "c" 90]]) := by
  refine ⟨?_, ?_, ?_⟩
  · intro s hs
    simp only [List.mem_cons, List.mem_singleton] at hs
    rcases hs with rfl | rfl | h
    · norm_num [List.Pairwise, cmAt, tsToRat, mkMessage]
    · norm_num [List.Pairwise, cmAt, tsToRat, mkMessage]
    · exact absurd h (by simp)
  · norm_num [List.Pairwise, cmAt, tsToRat, mkMessage]
  · exact C2_backward_sorted _
      (by
        intro s hs
        simp only [List.mem_cons, List.mem_singleton] at hs
        rcases hs with rfl | rfl | h
        · norm_num [List.Pairwise, cmAt, tsToRat, mkMessage]
        · norm_num [List.Pairwise, cmAt, tsToRat, mkMessage]
        · exact absurd h (by simp))
      (by norm_num [List.Pairwise, cmAt, tsToRat, mkMessage])

/-! ## Claim C4 — emitted comment ids -/

/-- The conversion copies the server's `meta.id` into the comment
verbatim. -/
theorem convertToNDGRComment_id {m : ChunkedMessage} {c : NDGRComment}
    (h : convertToNDGRComment m = some c) : c.id = (m.meta.getD {}).id := by
  unfold convertToNDGRComment at h
  split at h
  · exact absurd h (by simp)
  · split at h
    · exact absurd h (by simp)
    · split at h
      · exact absurd h (by simp)
      · simp only [Option.some.injEq] at h
        subst h
        rfl

/-- The admissibility filter preserves the id copy. -/
theorem admitChunkedMessage_id {m : ChunkedMessage} {c : NDGRComment}
    (h : admitChunkedMessage m = some c) : c.id = (m.meta.getD {}).id := by
  unfold admitChunkedMessage at h
  split at h
  · split at h
    · split at h
      · split at h
        · exact convertToNDGRComment_id h
        · exact absurd h (by simp)
      · exact absurd h (by simp)
    · exact absurd h (by simp)
  · exact absurd h (by simp)

/-- C4 counterexample: a wire message whose `meta` is present but whose
`meta.id` is the empty string passes the admissibility predicates (the
code checks only `HasField('meta')`, ndgr_client.py lines 916-928, and
never inspects `meta.id`) and is emitted as a comment with an empty
id. -/
theorem C4_counterexample :
    (fetchChunkedMessages [mkMessage "" 100]).map NDGRComment.id = [""] := by
  rfl

/-- C4 amended: the pipeline performs no emptiness check on ids — every
emitted comment's id is the originating message's `meta.id` verbatim
(protobuf default `""` when `meta` is absent), so an id is non-empty
exactly when the server transmitted a non-empty `meta.id`. -/
theorem C4_amended (msgs : List ChunkedMessage) (c : NDGRComment)
    (h : c ∈ fetchChunkedMessages msgs) :
    ∃ m ∈ msgs, c.id = (m.meta.getD {}).id := by
  unfold fetchChunkedMessages at h
  rw [List.mem_filterMap] at h
  obtain ⟨m, hm, ham⟩ := h
  exact ⟨m, hm, admitChunkedMessage_id ham⟩

/-- Witness for C4 at a singleton segment. -/
theorem C4_witness :
    ∃ m ∈ [mkMessage "ab" 5], (mkComment "ab" 5).id = (m.meta.getD {}).id :=
  C4_amended [mkMessage "ab" 5] (mkComment "ab" 5)
    (by rw [show fetchChunkedMessages [mkMessage "ab" 5] = [mkComment "ab" 5] from by rfl]
        exact List.mem_singleton.mpr rfl)

/-! ## Claim C5 — duplicate emission on retry -/

/-- C5 counterexample: one segment URI, first attempt decodes the frame
`[65]` and then fails with a transport error; the retry (fresh reader,
same URI, ndgr_client.py lines 959-961) receives the same body and
decodes the same frame again — the client emits the server's single
message twice. -/
theorem C5_counterexample :
    fetchProtobufStreamEmitted [([[0x01, 65]], false), ([[0x01, 65]], true)]
        = [[65], [65]] ∧
      ¬ (fetchProtobufStreamEmitted
          [([[0x01, 65]], false), ([[0x01, 65]], true)]).Nodup := by
  constructor
  · rfl
  · decide

/-- C5 amended: within a single error-free attempt the fetcher emits
exactly the frames framed in the body, each once; but an attempt that
fails mid-stream has already emitted its decoded frames, and the retry
re-emits from the start of the same URI, so duplicates are introduced
(at-least-once delivery across transport errors). -/
theorem C5_amended :
    (∀ chunks, fetchProtobufStreamEmitted [(chunks, true)]
        = (processChunks chunks []).1) ∧
      ∀ chunks rest, fetchProtobufStreamEmitted ((chunks, false) :: rest)
        = (processChunks chunks []).1 ++ fetchProtobufStreamFrames rest 4 := by
  constructor
  · intro chunks
    simp [fetchProtobufStreamEmitted, fetchProtobufStreamFrames]
  · intro chunks rest
    simp [fetchProtobufStreamEmitted, fetchProtobufStreamFrames]

/-! ## Claim C6 — duplicate Next entries in one slice -/

/-- C6 counterexample: the live-stream driver's entry loop
(ndgr_client.py lines 441-443) processes a second `Next` in the same
slice without any error — it silently overwrites the stored
continuation and finishes the slice normally. -/
theorem C6_counterexample :
    fetchChunkedEntriesSlice [ChunkedEntry.next 1700000100,
        ChunkedEntry.next 1700000132] none []
      = (some 1700000132, []) := by
  rfl

/-- C6 amended: only the backward-download driver treats a second
`Next` in one slice as a protocol violation (`assert ready_for_next is
None`, ndgr_client.py lines 599-601); the live-stream driver accepts it
and keeps the last value. -/
theorem C6_amended (t1 t2 : Int) (entries : List ChunkedEntry) :
    processChunkedEntries
        (ChunkedEntry.next t1 :: ChunkedEntry.next t2 :: entries) none
      = .error "Duplicated ReadyForNext" ∧
      fetchChunkedEntriesSlice
          (ChunkedEntry.next t1 :: ChunkedEntry.next t2 :: entries) none []
        = fetchChunkedEntriesSlice entries (some t2) [] := by
  constructor
  · simp [processChunkedEntries]
  · simp [fetchChunkedEntriesSlice]

/-! ## Claim C9 — refusing an already-ended program -/

/-- C9: if the first program-info fetch reports `status == 'ENDED'`,
`stream_comments_inner` raises `ValueError` before any streaming
machinery is built (ndgr_client.py lines 324-328): the result is the
error, never a comment list. -/
theorem C9_ended_refuses (info : NicoLiveProgramInfo)
    (entries : List ChunkedEntry) (segStream : String → List ChunkedMessage)
    (h : info.status = "ENDED") :
    streamCommentsInner info entries segStream =
        .error ("Program " ++ info.nicoliveProgramId ++
          " has already ended and cannot be streamed.") ∧
      ∀ comments, streamCommentsInner info entries segStream ≠ .ok comments := by
  unfold streamCommentsInner
  rw [if_pos h]
  exact ⟨rfl, fun _ => by simp⟩

/-- Witness for C9 at a concrete ENDED program. -/
theorem C9_witness :
    infoEnded.status = "ENDED" ∧
      streamCommentsInner infoEnded [] (fun _ => []) =
        .error ("Program " ++ infoEnded.nicoliveProgramId ++
          " has already ended and cannot be streamed.") ∧
      ∀ comments, streamCommentsInner infoEnded [] (fun _ => []) ≠ .ok comments :=
  ⟨rfl, C9_ended_refuses infoEnded [] (fun _ => []) rfl⟩

/-! ## Claim C7 — oversized varint -/

/-- C7 counterexample: a buffer whose leading varint occupies 11 bytes
(ten continuation bytes, then 0x01, declaring a 2^70-byte payload).
The claim says extraction must surface a fatal error rather than return
a frame or the `nothing` result; the code decodes the varint without
any width limit and returns the `nothing` result `none` — `unshiftChunk`
(protobuf_stream_reader.py lines 32-77) contains no error path at
all. -/
theorem C7_counterexample :
    unshiftChunk (List.replicate 10 0x80 ++ [0x01]) = none := by decide

/-- C7 amended: for every buffer whose leading varint decodes with a
width of more than 10 bytes, no error is surfaced: the unbounded decode
succeeds and extraction simply returns `none` when the declared length
exceeds the remaining buffered bytes, and the frame otherwise. -/
theorem C7_amended (buffer : List Nat) (o v : Nat)
    (hv : readVarInt buffer = some (o, v)) (_hwide : 10 < o) :
    unshiftChunk buffer =
      if buffer.length < o + v then none
      else some ((buffer.drop o).take v, buffer.drop (o + v)) := by
  unfold unshiftChunk
  rw [hv]

/-- Witness for C7 at the eleven-byte varint buffer. -/
theorem C7_witness :
    readVarInt (List.replicate 10 0x80 ++ [0x01]) = some (11, 2 ^ 70) ∧
      10 < 11 ∧
      unshiftChunk (List.replicate 10 0x80 ++ [0x01]) =
        (if (List.replicate 10 (0x80 : Nat) ++ [0x01]).length < 11 + 2 ^ 70 then
          none
        else
          some (((List.replicate 10 (0x80 : Nat) ++ [0x01]).drop 11).take (2 ^ 70),
            (List.replicate 10 (0x80 : Nat) ++ [0x01]).drop (11 + 2 ^ 70))) :=
  ⟨by decide, by decide, C7_amended _ 11 (2 ^ 70) (by decide) (by decide)⟩

/-! ## Claim C8 — partial-frame boundary -/

/-- C8: when the leading varint of a frame decodes to `n` (consuming
the whole varint byte block), a buffer holding the varint plus exactly
`n - 1` payload bytes extracts to nothing, one more byte extracts the
full `n`-byte frame (emptying the buffer), and a declared length
exceeding the remaining bytes is never an error — it is the `none`
outcome. -/
theorem C8_frame_boundary (prefixBytes payload : List Nat) (n b : Nat)
    (hv : readVarInt prefixBytes = some (prefixBytes.length, n))
    (hn : 1 ≤ n) (hlen : payload.length = n - 1) :
    unshiftChunk (prefixBytes ++ payload) = none ∧
      unshiftChunk (prefixBytes ++ (payload ++ [b])) =
        some (payload ++ [b], []) := by
  constructor
  · have hv2 := readVarIntAux_append payload hv
    have hc : (prefixBytes ++ payload).length < prefixBytes.length + n := by
      simp [hlen]; omega
    unfold unshiftChunk readVarInt
    unfold readVarInt at hv2
    rw [hv2]
    simp only [if_pos hc]
  · have hv3 := readVarIntAux_append (payload ++ [b]) hv
    have hc : ¬ (prefixBytes ++ (payload ++ [b])).length < prefixBytes.length + n := by
      simp [hlen]; omega
    have hdrop : (prefixBytes ++ (payload ++ [b])).drop prefixBytes.length
        = payload ++ [b] := List.drop_left _ _
    have htake : (payload ++ [b]).take n = payload ++ [b] :=
      List.take_of_length_le (by simp [hlen]; omega)
    have hdrop2 : (prefixBytes ++ (payload ++ [b])).drop (prefixBytes.length + n)
        = [] := List.drop_of_length_le (by simp [hlen]; omega)
    unfold unshiftChunk readVarInt
    rw [hv3]
    simp only [if_neg hc, hdrop, htake, hdrop2]

/-- Witness for C8: frame `"hello"` (`n = 5`), four payload bytes
buffered, then the fifth arrives. -/
theorem C8_witness :
    readVarInt [0x05] = some (([0x05] : List Nat).length, 5) ∧ 1 ≤ 5 ∧
      ([104, 101, 108, 108] : List Nat).length = 5 - 1 ∧
      unshiftChunk ([0x05] ++ [104, 101, 108, 108]) = none ∧
      unshiftChunk ([0x05] ++ ([104, 101, 108, 108] ++ [111])) =
        some ([104, 101, 108, 108] ++ [111], []) :=
  ⟨by decide, by decide, by decide,
    C8_frame_boundary [0x05] [104, 101, 108, 108] 5 111 (by decide) (by decide)
      (by decide)⟩


/-! ## Claim C3 — XML writer output -/

/-- C3 failing input: `convertToXMLString` sorts with
`key=lambda x: x.date_with_usec` (ndgr_client.py line 1168), but
`XMLCompatibleComment` declares no attribute `date_with_usec`
(constants.py lines 93-117), so for every non-empty input the sort's
key call raises `AttributeError` and no XML is produced; only the empty
list (whose sort never calls the key) succeeds, yielding the empty
document. -/
theorem C3_code_bug :
    convertToXMLString [] = .ok [] ∧
      convertToXMLString [Sum.inr xcShort] =
        .error "AttributeError: date_with_usec" := by
  constructor
  · rfl
  · rfl

/-! ## Claim C10 — nx_jikkyo marker attribute -/

/-- C10: the element-builder loop body adds `nx_jikkyo="1"` exactly for
user ids of at least 35 characters (ndgr_client.py lines 1180-1189) —
but `convertToXMLString` itself raises `AttributeError` in the sort
step (line 1168) before that loop runs, for every non-empty input,
including a comment with a 40-character NX-Jikkyo user id. -/
theorem C10_nx_jikkyo :
    (∀ x : XMLCompatibleComment,
        (("nx_jikkyo", "1") ∈ (chatElemOf x).attrs ↔ 35 ≤ x.user_id.length)) ∧
      35 ≤ xcLong.user_id.length ∧
      xcShort.user_id.length < 35 ∧
      (("nx_jikkyo", "1") ∈ (chatElemOf xcLong).attrs) ∧
      (("nx_jikkyo", "1") ∉ (chatElemOf xcShort).attrs) ∧
      convertToXMLString [Sum.inr xcLong] =
        .error "AttributeError: date_with_usec" := by
  refine ⟨?_, by decide, by decide, by decide, by decide, rfl⟩
  intro x
  unfold chatElemOf
  simp only [List.filterMap_append, List.mem_append, List.mem_filterMap]
  constructor
  · rintro (h | h)
    · exfalso
      simp only [List.mem_cons, List.mem_singleton] at h
      obtain ⟨kv, hkv, hmap⟩ := h
      rcases hkv with rfl | rfl | rfl | rfl | rfl | rfl | rfl | rfl | rfl | h2
      all_goals simp_all
    · by_cases hlen : 35 ≤ x.user_id.length
      · exact hlen
      · exfalso
        rw [if_neg hlen] at h
        simp at h
  · intro hlen
    right
    rw [if_pos hlen]
    simp [sanitize_for_xml]

end NDGR
